import Mathlib

/-!
Verification of the directus_client caching-and-invalidation subsystem.

The Go source is shallowly embedded: strings are Lean `String`s (all inputs
of interest are ASCII, and bytes are `Char.toNat`), Go maps become
association lists, 64-bit unsigned arithmetic is `Nat` arithmetic modulo
`2 ^ 64`, fallible operations return `Option` or `Except`, and the mutexes
are tracked as explicit acquire/release counters threaded through the state.
-/

set_option autoImplicit false

namespace DirectusClient

/-! ## Association-list maps (the embedding of Go `map[string]V`) -/

/-- Lookup in an association list, mirroring Go map indexing. -/
def assocFind {α : Type} : List (String × α) → String → Option α
  | [], _ => none
  | (k, v) :: rest, key => if k = key then some v else assocFind rest key

/-- Insert-or-overwrite, mirroring Go map assignment `m[k] = v`. -/
def assocSet {α : Type} : List (String × α) → String → α → List (String × α)
  | [], key, v => [(key, v)]
  | (k, w) :: rest, key, v =>
      if k = key then (key, v) :: rest else (k, w) :: assocSet rest key v

/-- Key removal, mirroring Go `delete(m, k)`. -/
def assocRemove {α : Type} : List (String × α) → String → List (String × α)
  | [], _ => []
  | (k, w) :: rest, key =>
      if k = key then assocRemove rest key else (k, w) :: assocRemove rest key

theorem assocFind_assocSet_same {α : Type} (m : List (String × α)) (k : String) (v : α) :
    assocFind (assocSet m k v) k = some v := by
  induction m with
  | nil => simp [assocSet, assocFind]
  | cons hd tl ih =>
      obtain ⟨k0, v0⟩ := hd
      by_cases h : k0 = k <;> simp [assocSet, assocFind, h, ih]

theorem assocFind_assocSet_ne {α : Type} (m : List (String × α)) (k k' : String) (v : α)
    (h : k' ≠ k) : assocFind (assocSet m k v) k' = assocFind m k' := by
  induction m with
  | nil => simp [assocSet, assocFind, Ne.symm h]
  | cons hd tl ih =>
      obtain ⟨k0, v0⟩ := hd
      by_cases h0 : k0 = k
      · subst h0
        simp [assocSet, assocFind, Ne.symm h]
      · by_cases h1 : k0 = k' <;> simp [assocSet, assocFind, h0, h1, h, ih]

theorem assocFind_assocRemove_same {α : Type} (m : List (String × α)) (k : String) :
    assocFind (assocRemove m k) k = none := by
  induction m with
  | nil => simp [assocRemove, assocFind]
  | cons hd tl ih =>
      obtain ⟨k0, v0⟩ := hd
      by_cases h : k0 = k <;> simp [assocRemove, assocFind, h, ih]

theorem assocRemove_absent {α : Type} (m : List (String × α)) (k : String)
    (h : assocFind m k = none) : assocRemove m k = m := by
  induction m with
  | nil => simp [assocRemove]
  | cons hd tl ih =>
      obtain ⟨k0, v0⟩ := hd
      by_cases h0 : k0 = k
      · simp [assocFind, h0] at h
      · simp [assocFind, h0] at h
        simp [assocRemove, h0, ih h]

/-! ## Go string splitting

`goSplit sep l` is Go `strings.Split(string(l), string(sep))` for a
one-character separator: it cuts at every occurrence of the separator and
keeps empty pieces. -/

def goSplit (sep : Char) : List Char → List (List Char)
  | [] => [[]]
  | c :: rest =>
      let r := goSplit sep rest
      if c = sep then [] :: r
      else
        match r with
        | [] => [[c]]
        | piece :: more => (c :: piece) :: more

theorem goSplit_ne_nil (sep : Char) (l : List Char) : goSplit sep l ≠ [] := by
  cases l with
  | nil => simp [goSplit]
  | cons c rest =>
      simp only [goSplit]
      by_cases h : c = sep
      · simp [h]
      · simp only [h, if_false]
        cases goSplit sep rest <;> simp

theorem goSplit_no_sep (sep : Char) (l : List Char) (h : sep ∉ l) :
    goSplit sep l = [l] := by
  induction l with
  | nil => rfl
  | cons c rest ih =>
      simp only [List.mem_cons, not_or] at h
      simp [goSplit, Ne.symm h.1, ih h.2]

theorem goSplit_append_sep (sep : Char) (l1 l2 : List Char) (h : sep ∉ l1) :
    goSplit sep (l1 ++ sep :: l2) = l1 :: goSplit sep l2 := by
  induction l1 with
  | nil => simp [goSplit]
  | cons c rest ih =>
      simp only [List.mem_cons, not_or] at h
      simp [goSplit, Ne.symm h.1, ih h.2]

/-! ## XXH64

Embedding of the 64-bit xxHash algorithm with seed 0, as computed by the
`github.com/cespare/xxhash/v2` dependency used in `queryKey`
(`h := xxhash.New(); h.Write(q); h.Sum64()`). All arithmetic is modulo
`2 ^ 64`; byte input is a `List Nat` of values below 256. -/

def M64 : Nat := 18446744073709551616

def xxPrime1 : Nat := 11400714785074694791
def xxPrime2 : Nat := 14029467366897019727
def xxPrime3 : Nat := 1609587929392839161
def xxPrime4 : Nat := 9650029242287828579
def xxPrime5 : Nat := 2870177450012600261

/-- Rotate a 64-bit value left by `n` bits (for `x < 2 ^ 64`, `0 < n < 64`). -/
def rotl64 (x n : Nat) : Nat := ((x <<< n) % M64) + (x >>> (64 - n))

/-- Little-endian read of eight bytes. -/
def u64le (b0 b1 b2 b3 b4 b5 b6 b7 : Nat) : Nat :=
  b0 + b1 <<< 8 + b2 <<< 16 + b3 <<< 24 + b4 <<< 32 + b5 <<< 40 + b6 <<< 48 + b7 <<< 56

/-- Little-endian read of four bytes. -/
def u32le (b0 b1 b2 b3 : Nat) : Nat :=
  b0 + b1 <<< 8 + b2 <<< 16 + b3 <<< 24

/-- One xxHash accumulator round: `rol31(acc + input*prime2) * prime1`. -/
def xxRound (acc input : Nat) : Nat :=
  (rotl64 ((acc + input * xxPrime2) % M64) 31 * xxPrime1) % M64

/-- Merge one stripe accumulator into the hash. -/
def xxMergeRound (acc v : Nat) : Nat :=
  ((acc ^^^ xxRound 0 v) * xxPrime1 + xxPrime4) % M64

/-- Consume 32-byte stripes while at least 32 bytes remain, returning the four
lane accumulators and the unconsumed tail. -/
def xxStripes (v1 v2 v3 v4 : Nat) :
    List Nat → Nat × Nat × Nat × Nat × List Nat
  | b0 :: b1 :: b2 :: b3 :: b4 :: b5 :: b6 :: b7 ::
    b8 :: b9 :: b10 :: b11 :: b12 :: b13 :: b14 :: b15 ::
    b16 :: b17 :: b18 :: b19 :: b20 :: b21 :: b22 :: b23 ::
    b24 :: b25 :: b26 :: b27 :: b28 :: b29 :: b30 :: b31 :: rest =>
      xxStripes
        (xxRound v1 (u64le b0 b1 b2 b3 b4 b5 b6 b7))
        (xxRound v2 (u64le b8 b9 b10 b11 b12 b13 b14 b15))
        (xxRound v3 (u64le b16 b17 b18 b19 b20 b21 b22 b23))
        (xxRound v4 (u64le b24 b25 b26 b27 b28 b29 b30 b31))
        rest
  | l => (v1, v2, v3, v4, l)

/-- Consume eight-byte chunks of the tail. -/
def xxTail8 (h : Nat) : List Nat → Nat × List Nat
  | b0 :: b1 :: b2 :: b3 :: b4 :: b5 :: b6 :: b7 :: rest =>
      xxTail8
        ((rotl64 (h ^^^ xxRound 0 (u64le b0 b1 b2 b3 b4 b5 b6 b7)) 27 * xxPrime1
          + xxPrime4) % M64)
        rest
  | l => (h, l)

/-- Consume one four-byte chunk of the tail when present. -/
def xxTail4 (h : Nat) : List Nat → Nat × List Nat
  | b0 :: b1 :: b2 :: b3 :: rest =>
      ((rotl64 (h ^^^ (u32le b0 b1 b2 b3 * xxPrime1) % M64) 23 * xxPrime2
        + xxPrime3) % M64, rest)
  | l => (h, l)

/-- Consume the remaining single bytes. -/
def xxTail1 (h : Nat) : List Nat → Nat
  | [] => h
  | b :: rest => xxTail1 ((rotl64 (h ^^^ (b * xxPrime5) % M64) 11 * xxPrime1) % M64) rest

/-- Final avalanche mix. -/
def xxAvalanche (h : Nat) : Nat :=
  let h1 := ((h ^^^ (h >>> 33)) * xxPrime2) % M64
  let h2 := ((h1 ^^^ (h1 >>> 29)) * xxPrime3) % M64
  h2 ^^^ (h2 >>> 32)

/-- XXH64 with seed 0 over a byte sequence. -/
def xxh64 (bs : List Nat) : Nat :=
  let n := bs.length
  let start :=
    if 32 ≤ n then
      match xxStripes ((xxPrime1 + xxPrime2) % M64) xxPrime2 0 (M64 - xxPrime1) bs with
      | (v1, v2, v3, v4, rest) =>
          ((xxMergeRound (xxMergeRound (xxMergeRound (xxMergeRound
            ((rotl64 v1 1 + rotl64 v2 7 + rotl64 v3 12 + rotl64 v4 18) % M64)
            v1) v2) v3) v4), rest)
    else (xxPrime5, bs)
  match start with
  | (h0, rest) =>
      match xxTail8 ((h0 + n) % M64) rest with
      | (h1, rest1) =>
          match xxTail4 h1 rest1 with
          | (h2, rest2) => xxAvalanche (xxTail1 h2 rest2)

/-! ## Cache key derivation (`queryKey` in cache.go) -/

/-- Byte sequence of an ASCII string. -/
def strBytes (s : String) : List Nat := s.data.map Char.toNat

/-- Lowercase hexadecimal rendering without leading zeros, matching
Go `strconv.FormatUint(x, 16)`. -/
def hexStr (n : Nat) : String := String.mk (Nat.toDigits 16 n)

/-- The canonical equality-filter query produced by
`fmt.Sprintf(RAW, id)` with the raw format `\x7b"id": \x7b"_eq": %s\x7d\x7d`. -/
def idQuery (id : String) : String := "\x7b\"id\": \x7b\"_eq\": " ++ id ++ "\x7d\x7d"

def slashChar : Char := '/'

/-- Embedding of `queryKey(c, q string) string` from cache.go: split the
collection on the slash character; when exactly two pieces result, the
collection becomes the first piece and the query is replaced by the canonical
id-equality filter over the second; the key is the collection, a colon, and
the lowercase-hex XXH64 of the effective query. -/
def queryKey (c q : String) : String :=
  let eff :=
    match goSplit slashChar c.data with
    | [c0, id] => (String.mk c0, idQuery (String.mk id))
    | _ => (c, q)
  eff.1 ++ ":" ++ hexStr (xxh64 (strBytes eff.2))

/-! ## Key/value store layer

`CacheModel σ` embeds the `CacheService` interface of cache.go as explicit
state passing over a store state `σ`: `get` returns the stored bytes or a
miss/error (`none`), `set` and `del` return the new store state or an error.
TTL expiry and per-call timeouts are not modelled (a timeout shows up as an
error result). -/

structure CacheModel (σ : Type) where
  get : σ → String → Option (List Nat)
  set : σ → String → List Nat → Except Unit σ
  del : σ → String → Except Unit σ

/-- A Redis database: an exact-key map from key strings to byte payloads. -/
abbrev RedisState : Type := List (String × List Nat)

/-- Modelled from the spec: the Redis commands issued by `redisCacheService`
(GET, SET, DEL on a single key), whose client library is an external
collaborator. Redis DEL removes exactly the named key; it performs no
pattern or wildcard matching (patterns exist only in the KEYS command used
by `Clear`). -/
def redisCmdGet (st : RedisState) (k : String) : Option (List Nat) := assocFind st k

/-- Modelled from the spec: Redis SET stores the value under the exact key. -/
def redisCmdSet (st : RedisState) (k : String) (v : List Nat) : RedisState := assocSet st k v

/-- Modelled from the spec: Redis DEL removes the exact key named, with no
pattern expansion. -/
def redisCmdDel (st : RedisState) (k : String) : RedisState := assocRemove st k

/-- Embedding of `redisCacheService` from cache.go: every operation prefixes
the key with the configured keyspace and a colon and issues the
corresponding Redis command. -/
def redisModel (keyspace : String) : CacheModel RedisState where
  get st k := redisCmdGet st (keyspace ++ ":" ++ k)
  set st k v := .ok (redisCmdSet st (keyspace ++ ":" ++ k) v)
  del st k := .ok (redisCmdDel st (keyspace ++ ":" ++ k))

/-! ## Refreshable query cache (`refreshableQueryCache` in cache.go)

The state carries the backing store, the observed-collection set, the
collections registered with the webhook event server (the callbacks all
being `pruneCollection` closures, the registry is tracked by collection
name), and `lockDepth`, a counter of acquisitions minus releases of the
cache mutex `mu` performed by the operation (a balanced operation returns
it unchanged). -/

structure RQCState (σ : Type) where
  store : σ
  observed : List String
  registered : List String
  lockDepth : Nat

/-- Embedding of `refreshableQueryCache.Get`: derive the key and delegate to
the store; a store error is a miss (`none`). -/
def rqcGet {σ : Type} (m : CacheModel σ) (st : RQCState σ) (collection rawQuery : String) :
    Option (List Nat) :=
  m.get st.store (queryKey collection rawQuery)

/-- Embedding of `refreshableQueryCache.Set`: the payload stream has been
read into `b` (`io.ReadAll`); on store-write failure the function returns
`(nil, err)`, embedded as result `none` — note the bytes already read are
dropped. Otherwise it locks `mu`; if the collection is already observed it
returns the bytes immediately (without unlocking); otherwise it marks the
collection observed, unlocks, and registers a prune callback with the
webhook event server, ignoring a registration error. -/
def rqcSet {σ : Type} (m : CacheModel σ) (st : RQCState σ) (collection rawQuery : String)
    (b : List Nat) : Option (List Nat) × RQCState σ :=
  match m.set st.store (queryKey collection rawQuery) b with
  | .error _ => (none, st)
  | .ok store1 =>
      let st1 : RQCState σ :=
        { st with store := store1, lockDepth := st.lockDepth + 1 }
      if collection ∈ st1.observed then
        (some b, st1)
      else
        let st2 : RQCState σ :=
          { st1 with observed := collection :: st1.observed,
                     lockDepth := st1.lockDepth - 1 }
        let st3 : RQCState σ :=
          { st2 with registered :=
              if collection ∈ st2.registered then st2.registered
              else collection :: st2.registered }
        (some b, st3)

/-- Embedding of `refreshableQueryCache.pruneCollection`: under the mutex
(released by defer), remove the collection from the observed set and ask the
store to delete the collection's key joined with a colon and an asterisk. -/
def pruneCollection {σ : Type} (m : CacheModel σ) (st : RQCState σ) (c : String) :
    Except Unit Unit × RQCState σ :=
  let st1 : RQCState σ :=
    { st with lockDepth := st.lockDepth + 1, observed := st.observed.erase c }
  match m.del st1.store (c ++ ":" ++ "*") with
  | .error e => (.error e, { st1 with lockDepth := st1.lockDepth - 1 })
  | .ok store1 =>
      (.ok (), { st1 with store := store1, lockDepth := st1.lockDepth - 1 })

/-! ## Webhook event server (client_test.go, second part) -/

structure WebhookEvent where
  event : String
  payload : String
  key : String
  collection : String
deriving DecidableEq

/-- Embedding of `WebhookEventServer.AddObserver` over an observer registry
with callbacks of type `α`: under the (balanced) lock, fail if the exact
collection key already has a callback, else insert. -/
def AddObserver {α : Type} (observes : List (String × α)) (collection : String) (f : α) :
    Except String Unit × List (String × α) :=
  match assocFind observes collection with
  | some _ => (.error "collection already exists", observes)
  | none => (.ok (), assocSet observes collection f)

/-- Embedding of `WebhookEventServer.RemoveObserver`: take the read lock
(never released — the returned counter is the acquisitions minus releases)
and delete the key; the function reports no error. -/
def RemoveObserver {α : Type} (observes : List (String × α)) (rlockDepth : Nat)
    (collection : String) : List (String × α) × Nat :=
  (assocRemove observes collection, rlockDepth + 1)

/-- The composite deduplication key built in the flush loop of
`WebhookEventServer.serve`: `e.Collection + ":" + e.Event + ":" + e.Key`. -/
def compositeKey (e : WebhookEvent) : String :=
  e.collection ++ ":" ++ e.event ++ ":" ++ e.key

/-- Embedding of the `uniqueEvents` map built by the flush loop: fold the
buffered events in order into a map keyed by `compositeKey`, later events
overwriting earlier ones. -/
def dedup (buf : List WebhookEvent) : List (String × WebhookEvent) :=
  buf.foldl (fun m e => assocSet m (compositeKey e) e) []

/-- The multiset of events dispatched for one flush window. -/
def dispatched (buf : List WebhookEvent) : List WebhookEvent :=
  (dedup buf).map Prod.snd

/-- The callbacks invoked for one dispatched event: the observer registered
for its exact collection, if any, then the wildcard observer, if any. -/
def dispatchTargets {α : Type} (observes : List (String × α)) (e : WebhookEvent) : List α :=
  (match assocFind observes e.collection with
   | some f => [f]
   | none => []) ++
  (match assocFind observes "*" with
   | some f => [f]
   | none => [])

/-- Specification-side notion used to state last-wins deduplication: the last
event of the buffer whose composite key is `k`. -/
def lastWith (k : String) : List WebhookEvent → Option WebhookEvent
  | [] => none
  | e :: rest =>
      match lastWith k rest with
      | some x => some x
      | none => if compositeKey e = k then some e else none

/-- Embedding of the ingestion handler registered in
`WebhookEventServer.serve`: given the request method, the Content-Type
header, and the result of JSON-decoding the body into a `WebhookEvent`,
return the HTTP status and body written (`http.Error` appends a newline) and
the debounce buffer after the request; a successfully decoded event is
appended to the buffer and the handler acknowledges immediately, dispatch
happening in the separate flush loop. -/
def serveWebhook (method ctype : String) (decodeResult : Except String WebhookEvent)
    (buf : List WebhookEvent) : (Nat × String) × List WebhookEvent :=
  if method ≠ "POST" then ((405, "method not allowed\n"), buf)
  else if ctype ≠ "application/json" then
    ((400, "content type must be application/json\n"), buf)
  else
    match decodeResult with
    | .error e => ((400, e ++ "\n"), buf)
    | .ok we => ((200, ""), buf ++ [we])

/-! ## Request routing (`DirectusClient.Call` in the client source) -/

structure HttpRequest where
  method : String
  path : String
  rawQuery : String
  body : List Nat

structure HttpResponse where
  statusCode : Nat
  body : List Nat
deriving DecidableEq

/-- If `needle` is an initial segment of `hay`, the rest of `hay`. -/
def dropNeedle : List Char → List Char → Option (List Char)
  | [], hay => some hay
  | _ :: _, [] => none
  | n :: ns, h :: hs => if h = n then dropNeedle ns hs else none

/-- Go `strings.SplitN(hay, needle, 2)` for a nonempty needle, as the pieces
before and after the first occurrence of `needle`; `none` when `needle` does
not occur (the Go call then returns a single piece). -/
def splitAtSub (needle : List Char) : List Char → Option (List Char × List Char)
  | [] =>
      match dropNeedle needle [] with
      | some r => some ([], r)
      | none => none
  | h :: t =>
      match dropNeedle needle (h :: t) with
      | some r => some ([], r)
      | none =>
          match splitAtSub needle t with
          | some (before, after) => some (h :: before, after)
          | none => none

def ITEMS_MAX_LIMIT : Nat := 1000

/-- Embedding of `DirectusClient.Call`: reject methods outside
GET/POST/PATCH/DELETE; default an empty raw query to the maximum item
limit; extract the collection as everything after the first `"items/"` in
the path (an absent marker is an invalid-URL error); try the query cache
and serve a hit as a synthesized 200 response; on a miss call the origin
(`client.Do`, an external collaborator passed as a function); when the
origin answers 200, store the body in the cache and replace the response
body with a reader over the bytes the cache returned — `nil`, hence empty,
when the cache write failed. Header rewriting and the authorization token
do not affect the cache logic and are not modelled. -/
def call {σ : Type} (m : CacheModel σ) (origin : HttpRequest → Except String HttpResponse)
    (st : RQCState σ) (r : HttpRequest) : Except String HttpResponse × RQCState σ :=
  if r.method = "GET" ∨ r.method = "POST" ∨ r.method = "PATCH" ∨ r.method = "DELETE" then
    let rawQuery := if r.rawQuery = "" then "limit=" ++ Nat.repr ITEMS_MAX_LIMIT
                    else r.rawQuery
    match splitAtSub ("items/".data) r.path.data with
    | none => (.error "invalid url", st)
    | some (_, collectionChars) =>
        let collection := String.mk collectionChars
        match rqcGet m st collection rawQuery with
        | some data => (.ok { statusCode := 200, body := data }, st)
        | none =>
            match origin { r with rawQuery := rawQuery } with
            | .error e => (.error e, st)
            | .ok resp =>
                if resp.statusCode = 200 then
                  match rqcSet m st collection rawQuery resp.body with
                  | (dataOpt, st1) =>
                      (.ok { resp with body := dataOpt.getD [] }, st1)
                else (.ok resp, st)
  else (.error "invalid method", st)

/-- A `CacheService` whose writes always fail (for example, a store whose
per-call timeout elapses on every operation): reads miss, `Set` reports an
error, `Del` succeeds vacuously. -/
def failStoreModel : CacheModel Unit where
  get _ _ := none
  set _ _ _ := .error ()
  del s _ := .ok s

/-! ## General lemmas about the embedded operations -/

theorem strMkData (s : String) : String.mk s.data = s := by
  cases s
  rfl

theorem dedup_foldl_lookup (buf : List WebhookEvent) (m : List (String × WebhookEvent))
    (k : String) :
    assocFind (buf.foldl (fun m0 e => assocSet m0 (compositeKey e) e) m) k =
      (match lastWith k buf with
       | some x => some x
       | none => assocFind m k) := by
  induction buf generalizing m with
  | nil => rfl
  | cons e rest ih =>
      simp only [List.foldl_cons, lastWith]
      rw [ih]
      cases hrest : lastWith k rest with
      | some x => simp
      | none =>
          by_cases hk : compositeKey e = k
          · subst hk
            simp [assocFind_assocSet_same]
          · simp [hk, assocFind_assocSet_ne m (compositeKey e) k e (Ne.symm hk)]

/-! ## Claims -/

/-- C1: the claim says that after `Set("users", q1, p1)` and
`Set("users", q2, p2)`, invoking the collection-level eviction callback for
`"users"` (which runs `pruneCollection "users"`) deletes every cached entry
whose key is prefixed by the collection, so both `Get`s miss. The code
instead issues a Redis DEL on the single literal key `"users:*"`, which is
not pattern-matched, so no cached entry is removed: this theorem evaluates
the scenario and shows that both `Get("users", ·)` calls still hit (and the
unrelated `"posts"` entry is also still there). -/
theorem c1_prune_deletes_nothing :
    (rqcGet (redisModel "directus")
      (pruneCollection (redisModel "directus")
        ((rqcSet (redisModel "directus")
          ((rqcSet (redisModel "directus")
            ((rqcSet (redisModel "directus") ⟨[], [], [], 0⟩
              "users" "limit=1" [1]).2)
            "users" "limit=2" [2]).2)
          "posts" "limit=3" [3]).2)
        "users").2
      "users" "limit=1" = some [1]) ∧
    (rqcGet (redisModel "directus")
      (pruneCollection (redisModel "directus")
        ((rqcSet (redisModel "directus")
          ((rqcSet (redisModel "directus")
            ((rqcSet (redisModel "directus") ⟨[], [], [], 0⟩
              "users" "limit=1" [1]).2)
            "users" "limit=2" [2]).2)
          "posts" "limit=3" [3]).2)
        "users").2
      "users" "limit=2" = some [2]) ∧
    (rqcGet (redisModel "directus")
      (pruneCollection (redisModel "directus")
        ((rqcSet (redisModel "directus")
          ((rqcSet (redisModel "directus")
            ((rqcSet (redisModel "directus") ⟨[], [], [], 0⟩
              "users" "limit=1" [1]).2)
            "users" "limit=2" [2]).2)
          "posts" "limit=3" [3]).2)
        "users").2
      "posts" "limit=3" = some [3]) := by
  exact ⟨rfl, rfl, rfl⟩

/-- C2: the claim says that for any method other than GET, `Call` neither
consults the query-result cache nor stores the origin response. In the code
the method gate only rejects methods outside GET/POST/PATCH/DELETE and the
cache is consulted and written for all four: this theorem shows (a) a
DELETE request is answered from the cache for every possible origin, the
origin never being consulted and the state left unchanged, and (b) a DELETE
that misses and receives a 200 origin response has that response stored, a
subsequent cache `Get` returning it. -/
theorem c2_delete_uses_cache :
    (∀ origin : HttpRequest → Except String HttpResponse,
      call (redisModel "directus") origin
        ⟨[("directus:" ++ queryKey "users" "limit=10", [7, 7])], [], [], 0⟩
        ⟨"DELETE", "/items/users", "limit=10", []⟩
        = (.ok { statusCode := 200, body := [7, 7] },
           ⟨[("directus:" ++ queryKey "users" "limit=10", [7, 7])], [], [], 0⟩)) ∧
    rqcGet (redisModel "directus")
      (call (redisModel "directus") (fun _ => .ok { statusCode := 200, body := [9] })
        ⟨[], [], [], 0⟩ ⟨"DELETE", "/items/users", "limit=10", []⟩).2
      "users" "limit=10" = some [9] := by
  exact ⟨fun origin => rfl, rfl⟩

/-- C3 counterexample: deriving a key for `("users/42", "")` does not equal
deriving a key for `("users", "\x7b\"id\":\x7b\"_eq\":\"42\"\x7d\x7d")`: the code rewrites
the id form to the query `\x7b"id": \x7b"_eq": 42\x7d\x7d` — spaces after the colons
and no quotes around the id — so the two hashes differ. -/
theorem c3_id_form_counterexample :
    queryKey "users/42" "" ≠ queryKey "users" "\x7b\"id\":\x7b\"_eq\":\"42\"\x7d\x7d" := by
  decide

/-- C3 amended: for every collection `c` and id `s`, neither containing a
slash, the key for `(c ++ "/" ++ s, anyQuery)` equals the key for `c` paired
with the canonical equality-filter query actually produced by the code,
`idQuery s`, namely `\x7b"id": \x7b"_eq": s\x7d\x7d` with a space after each colon and
the id unquoted. -/
theorem c3_id_form_amended (c s q : String)
    (hc : slashChar ∉ c.data) (hs : slashChar ∉ s.data) :
    queryKey (c ++ "/" ++ s) q = queryKey c (idQuery s) := by
  have hdata : (c ++ "/" ++ s).data = c.data ++ slashChar :: s.data := by
    have hslash : "/".data = [slashChar] := by decide
    rw [String.data_append, String.data_append, hslash, List.append_assoc]
    rfl
  have hsplit1 : goSplit slashChar (c ++ "/" ++ s).data = [c.data, s.data] := by
    rw [hdata, goSplit_append_sep slashChar c.data s.data hc,
        goSplit_no_sep slashChar s.data hs]
  have hsplit2 : goSplit slashChar c.data = [c.data] :=
    goSplit_no_sep slashChar c.data hc
  simp only [queryKey, hsplit1, hsplit2, strMkData]

/-- C3 amended witness at the concrete input `("users", "42", "")`. -/
theorem c3_id_form_amended_witness :
    slashChar ∉ "users".data ∧ slashChar ∉ "42".data ∧
      queryKey ("users" ++ "/" ++ "42") "" = queryKey "users" (idQuery "42") :=
  ⟨by decide, by decide, c3_id_form_amended "users" "42" "" (by decide) (by decide)⟩

/-- C4: the claim says a 200 origin response reaches the caller with its
body bytes intact even when the cache-store write fails. In the code a
failing store write makes `refreshableQueryCache.Set` return `nil` bytes,
and `Call` replaces the response body with a reader over that `nil`: this
theorem evaluates `Call` against a store whose writes fail and an origin
returning a 200 response with body `[5, 6, 7]`, and the caller receives a
200 response with an empty body instead. -/
theorem c4_store_failure_empties_body :
    (call failStoreModel (fun _ => .ok { statusCode := 200, body := [5, 6, 7] })
      ⟨(), [], [], 0⟩ ⟨"GET", "/items/users", "limit=1", []⟩).1
      = .ok { statusCode := 200, body := [] } ∧
    ([] : List Nat) ≠ [5, 6, 7] := by
  exact ⟨rfl, by decide⟩

/-- C5: over the faithful Redis-backed store, `Set(c, q, p)` returns exactly
the bytes `p` it read, and an immediately following `Get(c, q)` returns the
same bytes, for every keyspace, collection, query, payload and starting
state. -/
theorem c5_set_get_roundtrip (ks c q : String) (p : List Nat) (st : RQCState RedisState) :
    (rqcSet (redisModel ks) st c q p).1 = some p ∧
    rqcGet (redisModel ks) ((rqcSet (redisModel ks) st c q p).2) c q = some p := by
  by_cases h : c ∈ st.observed <;>
    simp [rqcSet, rqcGet, redisModel, redisCmdGet, redisCmdSet, h,
      assocFind_assocSet_same]

/-- C6: the flush step keeps, for every composite key, the last buffered
event with that key (first conjunct, stated for every buffer and key), and
in particular a buffer of three events sharing one (collection, event-kind,
record-key) triple dispatches exactly one event, the last one submitted. -/
theorem c6_flush_last_wins :
    (∀ (buf : List WebhookEvent) (k : String),
      assocFind (dedup buf) k = lastWith k buf) ∧
    (∀ e1 e2 e3 : WebhookEvent,
      e1.collection = e3.collection → e1.event = e3.event → e1.key = e3.key →
      e2.collection = e3.collection → e2.event = e3.event → e2.key = e3.key →
      dispatched [e1, e2, e3] = [e3]) := by
  constructor
  · intro buf k
    have h := dedup_foldl_lookup buf [] k
    simp only [dedup]
    rw [h]
    cases lastWith k buf <;> rfl
  · intro e1 e2 e3 hc1 he1 hk1 hc2 he2 hk2
    have h1 : compositeKey e1 = compositeKey e3 := by
      simp [compositeKey, hc1, he1, hk1]
    have h2 : compositeKey e2 = compositeKey e3 := by
      simp [compositeKey, hc2, he2, hk2]
    simp [dispatched, dedup, assocSet, h1, h2]

/-- C6 witness: three concrete notifications for the same
(collection, event, record-key) with distinct payloads coalesce into the
last one. -/
theorem c6_flush_last_wins_witness :
    dispatched [⟨"update", "p1", "7", "orders"⟩, ⟨"update", "p2", "7", "orders"⟩,
        ⟨"update", "p3", "7", "orders"⟩]
      = [⟨"update", "p3", "7", "orders"⟩] :=
  c6_flush_last_wins.2 ⟨"update", "p1", "7", "orders"⟩ ⟨"update", "p2", "7", "orders"⟩
    ⟨"update", "p3", "7", "orders"⟩ rfl rfl rfl rfl rfl rfl

/-- C7: for every collection key (the wildcard `"*"` included),
`AddObserver` succeeds when no callback is registered for that exact key;
when one is, it reports an error and leaves the registry unchanged, the
first callback still among the dispatch targets of the next event for that
collection; `RemoveObserver` removes any registration for the key and, the
function returning no error at all, is a no-op on a registry without the
key. -/
theorem c7_observer_registration (α : Type) (r : List (String × α)) (c : String)
    (f g f0 : α) :
    (assocFind r c = none → AddObserver r c f = (.ok (), assocSet r c f)) ∧
    (assocFind r c = some f0 →
      AddObserver r c g = (.error "collection already exists", r) ∧
      ∀ e : WebhookEvent, e.collection = c →
        f0 ∈ dispatchTargets (AddObserver r c g).2 e) ∧
    (∀ d : Nat, assocFind (RemoveObserver r d c).1 c = none) ∧
    (assocFind r c = none → ∀ d : Nat, (RemoveObserver r d c).1 = r) := by
  refine ⟨fun h => by simp [AddObserver, h], fun h => ⟨by simp [AddObserver, h], ?_⟩,
    fun d => assocFind_assocRemove_same r c, fun h d => assocRemove_absent r c h⟩
  intro e he
  simp [AddObserver, h, dispatchTargets, he]

/-- C7 witness at a concrete registry over `Nat` callbacks: a second
registration for `"users"` errors, the first callback `5` still being a
dispatch target, a fresh registration for `"posts"` succeeds, and removal
makes the key unregistered. -/
theorem c7_observer_registration_witness :
    (AddObserver ([("users", 5)] : List (String × Nat)) "posts" 7
      = (.ok (), assocSet [("users", 5)] "posts" 7)) ∧
    (AddObserver ([("users", 5)] : List (String × Nat)) "users" 9
      = (.error "collection already exists", [("users", 5)])) ∧
    (5 ∈ dispatchTargets (AddObserver ([("users", 5)] : List (String × Nat)) "users" 9).2
      ⟨"update", "", "7", "users"⟩) ∧
    assocFind (RemoveObserver ([("users", 5)] : List (String × Nat)) 0 "users").1 "users"
      = none :=
  have h1 := (c7_observer_registration Nat [("users", 5)] "posts" 7 7 5).1 (by decide)
  have h2 := (c7_observer_registration Nat [("users", 5)] "users" 9 9 5).2.1 (by decide)
  have h3 := (c7_observer_registration Nat [("users", 5)] "users" 9 9 5).2.2.1 0
  ⟨h1, h2.1, h2.2 ⟨"update", "", "7", "users"⟩ rfl, h3⟩

/-- C8: the ingestion handler answers a non-POST method with 405, a POST
whose Content-Type is not `application/json` with 400, a POST whose body
fails to decode into a `WebhookEvent` with 400 carrying the parse error
text, and a successfully decoded POST with 200 and an empty body, the event
merely appended to the debounce buffer (dispatch happens in the separate
flush loop). -/
theorem c8_ingestion_statuses (m ct : String) (dr : Except String WebhookEvent)
    (buf : List WebhookEvent) :
    (m ≠ "POST" → serveWebhook m ct dr buf = ((405, "method not allowed\n"), buf)) ∧
    (ct ≠ "application/json" →
      serveWebhook "POST" ct dr buf
        = ((400, "content type must be application/json\n"), buf)) ∧
    (∀ e : String, serveWebhook "POST" "application/json" (.error e) buf
        = ((400, e ++ "\n"), buf)) ∧
    (∀ we : WebhookEvent, serveWebhook "POST" "application/json" (.ok we) buf
        = ((200, ""), buf ++ [we])) := by
  refine ⟨fun h => by simp [serveWebhook, h], fun h => by simp [serveWebhook, h],
    fun e => rfl, fun we => rfl⟩

/-- C8 witness at concrete requests: a GET, a POST with a text content type,
a POST with a failing decode, and a well-formed POST. -/
theorem c8_ingestion_statuses_witness :
    serveWebhook "GET" "application/json" (.ok ⟨"update", "", "7", "orders"⟩) []
        = ((405, "method not allowed\n"), []) ∧
    serveWebhook "POST" "text/plain" (.ok ⟨"update", "", "7", "orders"⟩) []
        = ((400, "content type must be application/json\n"), []) ∧
    serveWebhook "POST" "application/json" (.error "unexpected EOF") []
        = ((400, "unexpected EOF\n"), []) ∧
    serveWebhook "POST" "application/json" (.ok ⟨"update", "", "7", "orders"⟩) []
        = ((200, ""), [⟨"update", "", "7", "orders"⟩]) :=
  have h1 := c8_ingestion_statuses "GET" "application/json"
    (.ok ⟨"update", "", "7", "orders"⟩) []
  have h2 := c8_ingestion_statuses "POST" "text/plain"
    (.ok ⟨"update", "", "7", "orders"⟩) []
  ⟨h1.1 (by decide), h2.2.1 (by decide), h2.2.2.1 "unexpected EOF",
    h2.2.2.2 ⟨"update", "", "7", "orders"⟩⟩

/-- C9: the claim says every public operation releases every lock it
acquires before returning. The code does not: `refreshableQueryCache.Set`
returns while still holding the cache mutex on the path where the
collection is already observed, and `WebhookEventServer.RemoveObserver`
takes the registry read lock and never releases it. This theorem evaluates
both operations at such inputs, starting from a balanced lock state, and
finds an acquire/release imbalance of one on return. -/
theorem c9_lock_leak :
    ((rqcSet (redisModel "directus") ⟨[], ["users"], ["users"], 0⟩
        "users" "limit=1" [1]).2.lockDepth = 1) ∧
    ((RemoveObserver ([("users", 0)] : List (String × Nat)) 0 "users").2 = 1) := by
  exact ⟨rfl, rfl⟩

/-- C10: the deduplication key is the colon-joined string
`collection ++ ":" ++ event ++ ":" ++ key` rather than the triple, so the
two events `(collection "a", event "b:c", key "d")` and
`(collection "a:b", event "c", key "d")`, though their triples differ,
share the composite key `"a:b:c:d"` and one flush window coalesces them
into the single dispatched event that came last. -/
theorem c10_composite_key_collision :
    compositeKey ⟨"b:c", "", "d", "a"⟩ = compositeKey ⟨"c", "", "d", "a:b"⟩ ∧
    ((⟨"b:c", "", "d", "a"⟩ : WebhookEvent).collection,
     (⟨"b:c", "", "d", "a"⟩ : WebhookEvent).event,
     (⟨"b:c", "", "d", "a"⟩ : WebhookEvent).key)
      ≠ ((⟨"c", "", "d", "a:b"⟩ : WebhookEvent).collection,
         (⟨"c", "", "d", "a:b"⟩ : WebhookEvent).event,
         (⟨"c", "", "d", "a:b"⟩ : WebhookEvent).key) ∧
    dispatched [⟨"b:c", "", "d", "a"⟩, ⟨"c", "", "d", "a:b"⟩]
      = [⟨"c", "", "d", "a:b"⟩] := by
  exact ⟨rfl, by decide, rfl⟩

end DirectusClient
